import Mathlib

/-!
Verification development for the cookies-service repository.

The definitions below are shallow embeddings of the JavaScript source:

* `CookieService` (src/services/cookieService.js): `storeCookies`,
  `getBestCookies`, `updateCookieQuality` over an in-memory list of cookie
  records standing for the Mongo collection.  Timestamps are integers
  (milliseconds since the epoch).
* `CookieRefreshTracker`, both the plain variant
  (src/services/cookieRefreshTracker.js) and the enhanced variant
  (src/services/cookieRefreshService.js): `startRefresh`, `markSuccess`,
  `markFailed`, `calculateBackoffDelay`.
* `getRandomProxy` (src/browser-cookies.js lines 89-115).
* The `CookiePoolManager` scheduler tick (`processVisits` /
  `startNewBrowserSession`) as a transition system on the set of active
  browser-session ids.
-/

namespace CookiesService

/-! ## Artifact (cookie record) data model, from src/models/cookie.js -/

inductive CookieStatus
  | active
  | inactive
  | expired
  | failed
deriving DecidableEq, Repr

structure Validity where
  isValid : Bool
  expiresAt : Int
  lastUsed : Int
  usageCount : Nat
deriving DecidableEq, Repr

structure Quality where
  score : Int
  successRate : Int
  lastSuccessful : Int
deriving DecidableEq, Repr

structure CookieRecord where
  cookieId : String
  domain : String
  tags : List String
  validity : Validity
  quality : Quality
  status : CookieStatus
deriving DecidableEq, Repr

/-! ## storeCookies (src/services/cookieService.js lines 41-82)

A payload entry carries an optional `expires` field in seconds since the
epoch; the source guards with `cookie.expires && cookie.expires > 0`. -/

structure PayloadCookie where
  name : String
  value : String
  expires : Option Int
deriving DecidableEq, Repr

/-- The `expires * 1000` value of a payload entry when the source guard
`cookie.expires && cookie.expires > 0` accepts it. -/
def cookieExpiryMs (c : PayloadCookie) : Option Int :=
  match c.expires with
  | some e => if 0 < e then some (e * 1000) else none
  | none => none

/-- Lines 42-52: fold over the payload starting from `now + 24h`, replacing
the accumulator by `expires * 1000` whenever that value is strictly below the
accumulator and strictly in the future. -/
def computeEarliestExpiry (now : Int) (cookies : List PayloadCookie) : Int :=
  cookies.foldl
    (fun earliest c =>
      match cookieExpiryMs c with
      | some ce => if ce < earliest ∧ now < ce then ce else earliest
      | none => earliest)
    (now + 24 * 60 * 60 * 1000)

/-- `CookieService.storeCookies`: the record handed to `Cookie.create`
(lines 54-82), restricted to the fields the pool engine reads. -/
def storeCookies (now : Int) (cookieId : String) (cookies : List PayloadCookie)
    (domain : Option String) (tags : List String) : CookieRecord :=
  { cookieId := cookieId
    domain := domain.getD "ticketmaster.com"
    tags := tags
    validity :=
      { isValid := true
        expiresAt := computeEarliestExpiry now cookies
        lastUsed := now
        usageCount := 0 }
    quality := { score := 100, successRate := 100, lastSuccessful := now }
    status := CookieStatus.active }

/-- The expiry policy as the spec words it: the minimum payload-entry expiry
strictly in the future, defaulting to `now + 24h` only when no entry has a
future expiry.  Stated separately from `computeEarliestExpiry` (the source
translation) so the two can be compared. -/
def specEarliestExpiry (now : Int) (cookies : List PayloadCookie) : Int :=
  let fut := (cookies.filterMap cookieExpiryMs).filter (fun e => decide (now < e))
  match fut.min? with
  | some m => m
  | none => now + 24 * 60 * 60 * 1000

/-! ## getBestCookies (src/services/cookieService.js lines 219-262) -/

structure BestCriteria where
  domain : Option String := none
  tags : List String := []
  excludeUsedRecently : Bool := true
  maxUsageCount : Nat := 10
deriving Repr

/-- The Mongo query built at lines 228-244: status active, valid, unexpired,
score at least 50, optional domain and tag filters, not used in the last five
minutes when requested, and usage strictly below `maxUsageCount` when that
bound is positive. -/
def matchesBestQuery (now : Int) (c : BestCriteria) (r : CookieRecord) : Bool :=
  decide (r.status = CookieStatus.active) &&
  r.validity.isValid &&
  decide (now < r.validity.expiresAt) &&
  decide ((50 : Int) ≤ r.quality.score) &&
  (match c.domain with
   | none => true
   | some d => decide (r.domain = d)) &&
  (c.tags.isEmpty || c.tags.any (fun t => r.tags.contains t)) &&
  (!c.excludeUsedRecently || decide (r.validity.lastUsed < now - 5 * 60 * 1000)) &&
  (decide (c.maxUsageCount = 0) || decide (r.validity.usageCount < c.maxUsageCount))

/-- Sort order `{ quality.score: -1, validity.usageCount: 1 }`: `a` wins over
the current best `b` only when strictly better. -/
def isBetter (a b : CookieRecord) : Bool :=
  decide (b.quality.score < a.quality.score) ||
  (decide (a.quality.score = b.quality.score) &&
    decide (a.validity.usageCount < b.validity.usageCount))

/-- One comparison step of the selection: keep the current best unless the
next record is strictly better. -/
def pickStep (best : Option CookieRecord) (r : CookieRecord) : Option CookieRecord :=
  match best with
  | none => some r
  | some b => if isBetter r b then some r else some b

/-- `findOne` with the sort above: the first record of the filtered list under
score-descending, usage-ascending order. -/
def pickBest (l : List CookieRecord) : Option CookieRecord :=
  l.foldl pickStep none

/-- `CookieService.getBestCookies`: the record the function returns (the
source returns the document fetched by `findOne`, before the usage-count
increment it then writes back). -/
def getBestCookies (now : Int) (c : BestCriteria) (store : List CookieRecord) :
    Option CookieRecord :=
  pickBest (store.filter (matchesBestQuery now c))

/-! ## updateCookieQuality (src/services/cookieService.js lines 270-306) -/

/-- `CookieService.updateCookieQuality` applied to a found record: on success,
score becomes `min(100, score + 1)` and `quality.lastSuccessful` is set; on
failure, score becomes `max(0, score - 5)` and, when the new score is below
20, status becomes `failed` and `validity.isValid` becomes `false`. -/
def updateCookieQuality (now : Int) (success : Bool) (r : CookieRecord) :
    CookieRecord :=
  if success then
    { r with
      quality :=
        { r.quality with
          score := min 100 (r.quality.score + 1)
          lastSuccessful := now } }
  else
    let newScore := max 0 (r.quality.score - 5)
    if newScore < 20 then
      { r with
        quality := { r.quality with score := newScore }
        status := CookieStatus.failed
        validity := { r.validity with isValid := false } }
    else
      { r with quality := { r.quality with score := newScore } }

/-! ## Attempt (cookie refresh) records

Both tracker variants operate on the `CookieRefresh` collection, modelled as
a list of records.  `consecutiveFailures` is `Option Nat` because
`startRefresh` never sets it (the enhanced `markFailed` reads it through
`(currentRecord.consecutiveFailures || 0)`). -/

inductive RefreshStatus
  | in_progress
  | success
  | failed
deriving DecidableEq, Repr

structure RefreshRecord where
  refreshId : String
  eventId : Option String := none
  status : RefreshStatus
  startTime : Int
  proxy : String := "no_proxy"
  completionTime : Option Int := none
  nextScheduledRefresh : Option Int := none
  cookieCount : Nat := 0
  retryCount : Nat := 0
  errorMessage : Option String := none
  consecutiveFailures : Option Nat := none
deriving DecidableEq, Repr

/-- JavaScript runtime failures the tracker operations can surface: a
`TypeError` (such as assigning to a `const` binding) or an ordinary thrown
`Error` with its message. -/
inductive JsError
  | typeError (msg : String)
  | jsError (msg : String)
deriving DecidableEq, Repr

/-- `findOneAndUpdate`: rewrite the first record matching `p` with `f`,
returning the updated document (Mongo `new: true`) and the updated
collection; `(none, l)` when nothing matches. -/
def updateFirst (p : RefreshRecord → Bool) (f : RefreshRecord → RefreshRecord) :
    List RefreshRecord → Option RefreshRecord × List RefreshRecord
  | [] => (none, [])
  | r :: rs =>
    if p r then (some (f r), f r :: rs)
    else
      let rest := updateFirst p f rs
      (rest.1, r :: rest.2)

/-! ## Enhanced tracker (src/services/cookieRefreshService.js lines 229-658)

Inputs are embedded at their JavaScript-intended types, so the dynamic-type
checks of `validateInput` (string-or-null, string-or-object) always pass. -/

/-- `calculateBackoffDelay` (lines 258-263):
`min(1h, 5min * 2^(min(consecutiveFailures - 1, 4)))` in milliseconds. -/
def calculateBackoffDelay (consecutiveFailures : Nat) : Int :=
  let baseDelay : Int := 5 * 60 * 1000
  let maxDelay : Int := 60 * 60 * 1000
  let exponentialDelay := baseDelay * 2 ^ (min (consecutiveFailures - 1) 4)
  min exponentialDelay maxDelay

/-- The document `startRefresh` hands to `CookieRefresh.create`
(lines 292-303): a fresh `in_progress` record; `consecutiveFailures` is not
among the created fields. -/
def freshRefreshRecord (refreshId : String) (eventId : Option String)
    (proxyString : String) (now : Int) : RefreshRecord :=
  { refreshId := refreshId
    eventId := eventId
    status := RefreshStatus.in_progress
    startTime := now
    proxy := proxyString }

/-- Enhanced `CookieRefreshTracker.startRefresh` (lines 276-311).  The source
declares `const proxyString = proxy?.proxy || proxy || 'no_proxy'` and then,
when `process.env.DISABLE_PROXIES === 'true'`, executes
`proxyString = 'no_proxy'` — an assignment to a `const` binding, which
JavaScript rejects at runtime with a `TypeError` before `CookieRefresh.create`
runs; the embedding makes that control flow explicit. -/
def startRefresh (disableProxiesEnv : Option String) (refreshId : String)
    (eventId : Option String) (proxy : Option String) (now : Int)
    (store : List RefreshRecord) :
    Except JsError RefreshRecord × List RefreshRecord :=
  let proxyString := proxy.getD "no_proxy"
  if disableProxiesEnv = some "true" then
    (Except.error (JsError.typeError "Assignment to constant variable."), store)
  else
    let created := freshRefreshRecord refreshId eventId proxyString now
    (Except.ok created, store ++ [created])

/-- Enhanced `CookieRefreshTracker.markSuccess` (lines 321-363): a single
conditional `findOneAndUpdate` keyed on `refreshId` AND `status:
'in_progress'`; a null result is reported as
"Refresh record not found or already completed". -/
def markSuccess (now : Int) (refreshId : String) (cookieCount retryCount : Nat)
    (store : List RefreshRecord) :
    Except JsError RefreshRecord × List RefreshRecord :=
  let upd := updateFirst
    (fun r => decide (r.refreshId = refreshId ∧ r.status = RefreshStatus.in_progress))
    (fun r =>
      { r with
        status := RefreshStatus.success
        completionTime := some now
        nextScheduledRefresh := some (now + 30 * 60 * 1000)
        cookieCount := cookieCount
        retryCount := retryCount })
    store
  match upd.1 with
  | none => (Except.error (JsError.jsError "Refresh record not found or already completed"), upd.2)
  | some r => (Except.ok r, upd.2)

/-- Enhanced `CookieRefreshTracker.markFailed` (lines 373-428): rejects an
empty error message, reads the record's own `consecutiveFailures` (defaulting
to 0) through a plain `findOne({refreshId})`, adds one, computes the backoff,
then performs the conditional `in_progress`-only update. -/
def markFailed (now : Int) (refreshId errorMessage : String) (retryCount : Nat)
    (store : List RefreshRecord) :
    Except JsError RefreshRecord × List RefreshRecord :=
  if errorMessage = "" then
    (Except.error (JsError.jsError "errorMessage must be a non-empty string"), store)
  else
    match store.find? (fun r => decide (r.refreshId = refreshId)) with
    | none => (Except.error (JsError.jsError "Refresh record not found"), store)
    | some current =>
      let consecutiveFailures := current.consecutiveFailures.getD 0 + 1
      let backoffDelay := calculateBackoffDelay consecutiveFailures
      let upd := updateFirst
        (fun r => decide (r.refreshId = refreshId ∧ r.status = RefreshStatus.in_progress))
        (fun r =>
          { r with
            status := RefreshStatus.failed
            completionTime := some now
            nextScheduledRefresh := some (now + backoffDelay)
            errorMessage := some (errorMessage.take 500)
            retryCount := retryCount
            consecutiveFailures := some consecutiveFailures })
        store
      match upd.1 with
      | none => (Except.error (JsError.jsError "Refresh record not found or already completed"), upd.2)
      | some r => (Except.ok r, upd.2)

/-! ## Plain tracker (src/services/cookieRefreshTracker.js lines 1-229) -/

/-- Plain `CookieRefreshTracker.markSuccess` (lines 40-69): a `findOne` on the
id alone followed by an unconditional `findOneAndUpdate({refreshId})` — no
status condition anywhere. -/
def plainMarkSuccess (now : Int) (refreshId : String) (cookieCount retryCount : Nat)
    (store : List RefreshRecord) :
    Except JsError RefreshRecord × List RefreshRecord :=
  match store.find? (fun r => decide (r.refreshId = refreshId)) with
  | none => (Except.error (JsError.jsError "Refresh record not found"), store)
  | some _ =>
    let upd := updateFirst
      (fun r => decide (r.refreshId = refreshId))
      (fun r =>
        { r with
          status := RefreshStatus.success
          completionTime := some now
          nextScheduledRefresh := some (now + 30 * 60 * 1000)
          cookieCount := cookieCount
          retryCount := retryCount })
      store
    match upd.1 with
    | none => (Except.error (JsError.jsError "Refresh record not found"), upd.2)
    | some r => (Except.ok r, upd.2)

/-- Plain `CookieRefreshTracker.markFailed` (lines 79-109): likewise
unconditional, with a fixed five-minute reschedule. -/
def plainMarkFailed (now : Int) (refreshId errorMessage : String) (retryCount : Nat)
    (store : List RefreshRecord) :
    Except JsError RefreshRecord × List RefreshRecord :=
  match store.find? (fun r => decide (r.refreshId = refreshId)) with
  | none => (Except.error (JsError.jsError "Refresh record not found"), store)
  | some _ =>
    let upd := updateFirst
      (fun r => decide (r.refreshId = refreshId))
      (fun r =>
        { r with
          status := RefreshStatus.failed
          completionTime := some now
          nextScheduledRefresh := some (now + 5 * 60 * 1000)
          errorMessage := some errorMessage
          retryCount := retryCount })
      store
    match upd.1 with
    | none => (Except.error (JsError.jsError "Refresh record not found"), upd.2)
    | some r => (Except.ok r, upd.2)

/-! ## getRandomProxy (src/browser-cookies.js lines 89-115)

`Math.floor(Math.random() * availableProxies.length)` is modelled by a
random-source function `rng` mapping a list length to an index; the theorems
assume `rng n < n` for positive `n`, exactly the range of the source
expression. -/

structure ProxyEntry where
  proxy : String
deriving DecidableEq, Repr

/-- `getRandomProxy`: returns the selected proxy (or `none` when the global
list is empty, the `NoProxyAvailable` case) together with the resulting
failed-proxy set, which is cleared when every proxy had failed. -/
def getRandomProxy (proxies : List ProxyEntry) (failedProxies : List String)
    (avoidFailedProxies : Bool) (rng : Nat → Nat) :
    Option ProxyEntry × List String :=
  if proxies.isEmpty then (none, failedProxies)
  else
    if avoidFailedProxies ∧ failedProxies ≠ [] then
      let available := proxies.filter (fun p => !(failedProxies.contains p.proxy))
      if available.isEmpty then
        (proxies.get? (rng proxies.length), [])
      else
        (available.get? (rng available.length), failedProxies)
    else
      (proxies.get? (rng proxies.length), failedProxies)

/-! ## CookiePoolManager scheduler (src/services/cookieService.js lines 531-641)

One `processVisits` tick: when `activeBrowsers.size <
maxConcurrentBrowsers`, every branch of the decision ladder sets
`shouldStartBrowser = true`, so the tick calls `startNewBrowserSession`,
which adds exactly one fresh session id — unless `EventService.getRandomEvent`
finds no event, in which case it returns without spawning.  A session's
`finally` handler deletes its id from the set. -/

def processVisitsTick (maxConcurrent : Nat) (active : Finset String)
    (hasEvent : Bool) (newId : String) : Finset String :=
  if active.card < maxConcurrent then
    if hasEvent then insert newId active else active
  else active

def completeSession (active : Finset String) (sessionId : String) : Finset String :=
  active.erase sessionId

/-- States of the pool manager reachable from the initial empty
`activeBrowsers` set by scheduler ticks and session completions. -/
inductive PoolReachable (maxConcurrent : Nat) : Finset String → Prop
  | init : PoolReachable maxConcurrent ∅
  | tick (s : Finset String) (hasEvent : Bool) (newId : String) :
      PoolReachable maxConcurrent s →
      PoolReachable maxConcurrent (processVisitsTick maxConcurrent s hasEvent newId)
  | complete (s : Finset String) (sessionId : String) :
      PoolReachable maxConcurrent s →
      PoolReachable maxConcurrent (completeSession s sessionId)

/-! ## Helper lemmas about the best-artifact selection -/

theorem pickStep_eq_or (best : Option CookieRecord) (r : CookieRecord) :
    pickStep best r = some r ∨ pickStep best r = best := by
  cases best with
  | none => exact Or.inl rfl
  | some b =>
    by_cases h : isBetter r b = true
    · exact Or.inl (by simp [pickStep, h])
    · exact Or.inr (by simp [pickStep, h])

theorem foldl_pickStep_mem :
    ∀ (l : List CookieRecord) (acc : Option CookieRecord) (r : CookieRecord),
      l.foldl pickStep acc = some r → acc = some r ∨ r ∈ l := by
  intro l
  induction l with
  | nil => intro acc r h; exact Or.inl h
  | cons x xs ih =>
    intro acc r h
    rcases ih (pickStep acc x) r h with h1 | h1
    · rcases pickStep_eq_or acc x with h2 | h2
      · rw [h2] at h1
        exact Or.inr (by rw [← Option.some_inj.mp h1]; exact List.mem_cons_self x xs)
      · exact Or.inl (h2 ▸ h1)
    · exact Or.inr (List.mem_cons_of_mem x h1)

theorem pickBest_mem (l : List CookieRecord) (r : CookieRecord)
    (h : pickBest l = some r) : r ∈ l := by
  rcases foldl_pickStep_mem l none r h with h1 | h1
  · exact absurd h1 (by simp)
  · exact h1

theorem getBestCookies_mem_match (now : Int) (c : BestCriteria)
    (store : List CookieRecord) (r : CookieRecord)
    (h : getBestCookies now c store = some r) :
    r ∈ store ∧ matchesBestQuery now c r = true := by
  have hm := pickBest_mem _ _ h
  exact ⟨List.mem_of_mem_filter hm, List.of_mem_filter hm⟩

theorem matchesBestQuery_props (now : Int) (c : BestCriteria) (r : CookieRecord)
    (h : matchesBestQuery now c r = true) :
    r.status = CookieStatus.active ∧ r.validity.isValid = true ∧
      now < r.validity.expiresAt ∧ (50 : Int) ≤ r.quality.score ∧
      (c.maxUsageCount = 0 ∨ r.validity.usageCount < c.maxUsageCount) := by
  simp only [matchesBestQuery, Bool.and_eq_true, Bool.or_eq_true,
    decide_eq_true_eq] at h
  exact ⟨h.1.1.1.1.1.1.1, h.1.1.1.1.1.1.2, h.1.1.1.1.1.2, h.1.1.1.1.2, h.2⟩

theorem getBestCookies_singleton_none (now : Int) (c : BestCriteria)
    (a : CookieRecord) (h : matchesBestQuery now c a = false) :
    getBestCookies now c [a] = none := by
  simp [getBestCookies, List.filter, h, pickBest]

/-! ## Claim theorems for the artifact store -/

/-- Claim C1: for every store state and every filter, `getBestCookies` only
returns artifacts that are active, valid, and unexpired at query time, and a
store holding only an artifact that expired in the past yields no result. -/
theorem C1_getBestCookies_never_expired :
    ∀ (now : Int) (c : BestCriteria) (store : List CookieRecord),
      (∀ r : CookieRecord, getBestCookies now c store = some r →
        r.status = CookieStatus.active ∧ r.validity.isValid = true ∧
          now < r.validity.expiresAt) ∧
      (∀ a : CookieRecord, a.validity.expiresAt ≤ now →
        getBestCookies now c [a] = none) := by
  intro now c store
  constructor
  · intro r h
    have hp := matchesBestQuery_props now c r (getBestCookies_mem_match now c store r h).2
    exact ⟨hp.1, hp.2.1, hp.2.2.1⟩
  · intro a ha
    apply getBestCookies_singleton_none
    rw [Bool.eq_false_iff]
    intro ht
    exact absurd (matchesBestQuery_props now c a ht).2.2.1 (not_lt.mpr ha)

/-- A sample artifact that is valid and active but expired at time 100. -/
def pastExpiredCookie : CookieRecord :=
  { cookieId := "c-past"
    domain := "ticketmaster.com"
    tags := []
    validity := { isValid := true, expiresAt := 50, lastUsed := 0, usageCount := 0 }
    quality := { score := 100, successRate := 100, lastSuccessful := 0 }
    status := CookieStatus.active }

/-- Witness for C1: at time 100, a store containing only an artifact whose
expiry 50 lies in the past yields no result. -/
theorem C1_witness : getBestCookies 100 {} [pastExpiredCookie] = none :=
  (C1_getBestCookies_never_expired 100 {} [pastExpiredCookie]).2
    pastExpiredCookie (by decide)

/-- Claim C9: under the default criteria, `getBestCookies` additionally
requires `usageCount < 10` and `score ≥ 50`; an otherwise valid, active,
unexpired artifact with `usageCount ≥ 10` is never served, even alone in the
store. -/
theorem C9_getBestCookies_usage_and_score_filters :
    ∀ (now : Int) (store : List CookieRecord),
      (∀ r : CookieRecord, getBestCookies now {} store = some r →
        r.validity.usageCount < 10 ∧ (50 : Int) ≤ r.quality.score) ∧
      (∀ a : CookieRecord, a.status = CookieStatus.active →
        a.validity.isValid = true → now < a.validity.expiresAt →
        10 ≤ a.validity.usageCount → getBestCookies now {} [a] = none) := by
  intro now store
  constructor
  · intro r h
    have hp := matchesBestQuery_props now {} r (getBestCookies_mem_match now {} store r h).2
    refine ⟨?_, hp.2.2.2.1⟩
    rcases hp.2.2.2.2 with h0 | hlt
    · exact absurd h0 (by decide)
    · exact hlt
  · intro a _ _ _ huse
    apply getBestCookies_singleton_none
    rw [Bool.eq_false_iff]
    intro ht
    rcases (matchesBestQuery_props now {} a ht).2.2.2.2 with h0 | hlt
    · exact absurd h0 (by decide)
    · have h10 : ({} : BestCriteria).maxUsageCount = 10 := rfl
      rw [h10] at hlt
      omega

/-- A sample artifact that is active, valid and unexpired at time 100 but has
already been used 10 times. -/
def wornOutCookie : CookieRecord :=
  { cookieId := "c-worn"
    domain := "ticketmaster.com"
    tags := []
    validity := { isValid := true, expiresAt := 900000, lastUsed := -900000, usageCount := 10 }
    quality := { score := 100, successRate := 100, lastSuccessful := 0 }
    status := CookieStatus.active }

/-- Witness for C9: the used-10-times artifact above is not served even when
it is the only artifact in the store. -/
theorem C9_witness : getBestCookies 100 {} [wornOutCookie] = none :=
  (C9_getBestCookies_usage_and_score_filters 100 [wornOutCookie]).2
    wornOutCookie (by decide) (by decide) (by decide) (by decide)

/-! ## Helper lemmas about quality feedback -/

theorem updateCookieQuality_fail_high (now : Int) (r : CookieRecord)
    (h : 25 ≤ r.quality.score) :
    updateCookieQuality now false r
      = { r with quality := { r.quality with score := r.quality.score - 5 } } := by
  have h2 : ¬ max 0 (r.quality.score - 5) < 20 := by omega
  have h1 : max 0 (r.quality.score - 5) = r.quality.score - 5 := by omega
  simp only [updateCookieQuality, Bool.false_eq_true, if_false, if_neg h2]
  rw [h1]

theorem updateCookieQuality_fail_low (now : Int) (r : CookieRecord)
    (h : max 0 (r.quality.score - 5) < 20) :
    updateCookieQuality now false r
      = { r with
          quality := { r.quality with score := max 0 (r.quality.score - 5) }
          status := CookieStatus.failed
          validity := { r.validity with isValid := false } } := by
  simp [updateCookieQuality, h]

theorem iterate_fail_linear (now : Int) (r : CookieRecord)
    (h : r.quality.score = 100) :
    ∀ k : Nat, k ≤ 16 →
      ((updateCookieQuality now false)^[k] r).quality.score = 100 - 5 * (k : Int) ∧
      ((updateCookieQuality now false)^[k] r).status = r.status ∧
      ((updateCookieQuality now false)^[k] r).validity = r.validity := by
  intro k
  induction k with
  | zero =>
    intro _
    refine ⟨?_, ?_, ?_⟩ <;> simp [h]
  | succ n ih =>
    intro hk
    obtain ⟨hs, hst, hv⟩ := ih (by omega)
    rw [Function.iterate_succ_apply']
    rw [updateCookieQuality_fail_high now _ (by rw [hs]; omega)]
    refine ⟨?_, hst, hv⟩
    simp only [hs]
    push_cast
    ring

/-! ## Claim theorem for quality feedback -/

/-- Claim C2: feedback updates the score by `min(100, s+1)` on success
(stamping `lastSuccessful`) and `max(0, s-5)` on failure, marking the record
failed and invalid when the new score drops below 20; consequently 17
consecutive failure feedbacks on a fresh score-100 artifact make it `failed`
and the best-artifact selection never returns it again. -/
theorem C2_updateCookieQuality_spec :
    ∀ (now : Int) (r : CookieRecord),
      0 ≤ r.quality.score → r.quality.score ≤ 100 →
      ((updateCookieQuality now true r).quality.score
          = min 100 (r.quality.score + 1) ∧
        (updateCookieQuality now true r).quality.lastSuccessful = now) ∧
      ((updateCookieQuality now false r).quality.score
          = max 0 (r.quality.score - 5) ∧
        (max 0 (r.quality.score - 5) < 20 →
          (updateCookieQuality now false r).status = CookieStatus.failed ∧
          (updateCookieQuality now false r).validity.isValid = false)) ∧
      (r.quality.score = 100 →
        ((updateCookieQuality now false)^[17] r).status = CookieStatus.failed ∧
        ((updateCookieQuality now false)^[17] r).validity.isValid = false ∧
        ∀ (now2 : Int) (c : BestCriteria) (store : List CookieRecord),
          getBestCookies now2 c store
            ≠ some ((updateCookieQuality now false)^[17] r)) := by
  intro now r _ _
  refine ⟨⟨by simp [updateCookieQuality], by simp [updateCookieQuality]⟩, ⟨?_, ?_⟩, ?_⟩
  · by_cases h : max 0 (r.quality.score - 5) < 20
    · rw [updateCookieQuality_fail_low now r h]
    · have h25 : 25 ≤ r.quality.score := by omega
      rw [updateCookieQuality_fail_high now r h25]
      simp only
      omega
  · intro h
    rw [updateCookieQuality_fail_low now r h]
    exact ⟨rfl, rfl⟩
  · intro h100
    obtain ⟨hs, _, _⟩ := iterate_fail_linear now r h100 16 (by omega)
    have h16 : ((updateCookieQuality now false)^[16] r).quality.score = 20 := by
      rw [hs]; norm_num
    have hstep : (17 : Nat) = 16 + 1 := rfl
    have hlow : max 0 (((updateCookieQuality now false)^[16] r).quality.score - 5) < 20 := by
      rw [h16]; norm_num
    have h17 : (updateCookieQuality now false)^[17] r
        = updateCookieQuality now false ((updateCookieQuality now false)^[16] r) := by
      rw [hstep, Function.iterate_succ_apply']
    rw [h17, updateCookieQuality_fail_low now _ hlow]
    refine ⟨rfl, rfl, ?_⟩
    intro now2 c store hsel
    have hp := matchesBestQuery_props now2 c _ (getBestCookies_mem_match now2 c store _ hsel).2
    have hcon : CookieStatus.failed = CookieStatus.active := hp.1
    exact absurd hcon (by decide)

/-- A fresh, score-100, active artifact. -/
def freshCookie : CookieRecord :=
  { cookieId := "c-fresh"
    domain := "ticketmaster.com"
    tags := []
    validity := { isValid := true, expiresAt := 90000000, lastUsed := 0, usageCount := 0 }
    quality := { score := 100, successRate := 100, lastSuccessful := 0 }
    status := CookieStatus.active }

/-- Witness for C2: after 17 failure feedbacks the fresh artifact is failed,
invalid, and not returned by a concrete best-artifact query over a store
containing exactly it. -/
theorem C2_witness :
    ((updateCookieQuality 0 false)^[17] freshCookie).status = CookieStatus.failed ∧
    ((updateCookieQuality 0 false)^[17] freshCookie).validity.isValid = false ∧
    getBestCookies 100 {} [(updateCookieQuality 0 false)^[17] freshCookie]
      ≠ some ((updateCookieQuality 0 false)^[17] freshCookie) := by
  obtain ⟨h1, h2, h3⟩ :=
    (C2_updateCookieQuality_spec 0 freshCookie (by decide) (by decide)).2.2 (by decide)
  exact ⟨h1, h2, h3 100 {} [(updateCookieQuality 0 false)^[17] freshCookie]⟩

/-! ## Helper lemmas about the expiry computation -/

theorem computeEarliestExpiry_fold (now : Int) :
    ∀ (l : List PayloadCookie) (init : Int),
      l.foldl
        (fun earliest c =>
          match cookieExpiryMs c with
          | some ce => if ce < earliest ∧ now < ce then ce else earliest
          | none => earliest)
        init
      = ((l.filterMap cookieExpiryMs).filter (fun e => decide (now < e))).foldl min init := by
  intro l
  induction l with
  | nil => intro init; rfl
  | cons c cs ih =>
    intro init
    rcases hc : cookieExpiryMs c with _ | ce
    · simp only [List.foldl_cons, List.filterMap_cons, hc]
      exact ih init
    · by_cases hfut : now < ce
      · have hstep : (if ce < init ∧ now < ce then ce else init) = min init ce := by
          by_cases hlt : ce < init
          · rw [if_pos ⟨hlt, hfut⟩]; omega
          · rw [if_neg (by tauto)]; omega
        simp only [List.foldl_cons, List.filterMap_cons, hc, hstep,
          List.filter_cons, decide_eq_true_eq, if_pos hfut]
        exact ih (min init ce)
      · have hstep : (if ce < init ∧ now < ce then ce else init) = init := by
          rw [if_neg (by tauto)]
        simp only [List.foldl_cons, List.filterMap_cons, hc, hstep,
          List.filter_cons, decide_eq_true_eq, if_neg hfut]
        exact ih init

theorem foldl_min_le_init : ∀ (l : List Int) (a : Int), l.foldl min a ≤ a := by
  intro l
  induction l with
  | nil => intro a; exact le_refl a
  | cons x xs ih =>
    intro a
    exact le_trans (ih (min a x)) (min_le_left a x)

/-! ## Claim theorems for storeCookies -/

/-- Counterexample to claim C4 as stated: at time 0, a payload whose single
entry expires 48 hours out (expires = 172800 seconds) has minimum future
expiry 172800000 ms, yet `storeCookies` records `expiresAt = 86400000`
(now + 24h): the 24-hour default is the initial fold accumulator, so it caps
every longer-lived entry rather than applying only when no entry qualifies. -/
theorem C4_counterexample :
    specEarliestExpiry 0 [{ name := "auth_token", value := "x", expires := some 172800 }]
      = 172800000 ∧
    (storeCookies 0 "id0" [{ name := "auth_token", value := "x", expires := some 172800 }]
        none []).validity.expiresAt = 86400000 ∧
    (storeCookies 0 "id0" [{ name := "auth_token", value := "x", expires := some 172800 }]
        none []).validity.expiresAt
      ≠ specEarliestExpiry 0 [{ name := "auth_token", value := "x", expires := some 172800 }] := by
  refine ⟨by decide, by decide, by decide⟩

/-- Claim C4 as amended: `storeCookies` sets `validity.expiresAt` to the
minimum of `now + 24h` and the payload entries' strictly-future expiries — the
earliest future expiry capped at 24 hours, with `now + 24h` both the default
and an upper bound — and initializes `quality.score = 100`,
`status = active`. -/
theorem C4_amended_storeCookies_expiry :
    ∀ (now : Int) (cid : String) (cookies : List PayloadCookie)
      (dom : Option String) (tags : List String),
      (storeCookies now cid cookies dom tags).validity.expiresAt
        = ((cookies.filterMap cookieExpiryMs).filter (fun e => decide (now < e))).foldl
            min (now + 24 * 60 * 60 * 1000) ∧
      (storeCookies now cid cookies dom tags).validity.expiresAt
        ≤ now + 24 * 60 * 60 * 1000 ∧
      (storeCookies now cid cookies dom tags).quality.score = 100 ∧
      (storeCookies now cid cookies dom tags).status = CookieStatus.active := by
  intro now cid cookies dom tags
  have heq : (storeCookies now cid cookies dom tags).validity.expiresAt
      = ((cookies.filterMap cookieExpiryMs).filter (fun e => decide (now < e))).foldl
          min (now + 24 * 60 * 60 * 1000) := by
    show computeEarliestExpiry now cookies = _
    exact computeEarliestExpiry_fold now cookies (now + 24 * 60 * 60 * 1000)
  refine ⟨heq, ?_, rfl, rfl⟩
  rw [heq]
  exact foldl_min_le_init _ _

/-! ## Claim theorem for the backoff function -/

/-- Claim C5: `calculateBackoffDelay n = min(1h, 5min * 2^(min(n-1,4)))` for
`n ≥ 1`, non-decreasing in `n`, bounded by one hour, with the values
`backoff(1) = 5 min` and `backoff(5) = backoff(6) = 1 h`. -/
theorem C5_calculateBackoffDelay_spec :
    (∀ n : Nat, 1 ≤ n →
      calculateBackoffDelay n
        = min (60 * 60 * 1000) (5 * 60 * 1000 * 2 ^ (min (n - 1) 4))) ∧
    (∀ m n : Nat, 1 ≤ m → m ≤ n →
      calculateBackoffDelay m ≤ calculateBackoffDelay n) ∧
    (∀ n : Nat, calculateBackoffDelay n ≤ 60 * 60 * 1000) ∧
    calculateBackoffDelay 1 = 5 * 60 * 1000 ∧
    calculateBackoffDelay 5 = 60 * 60 * 1000 ∧
    calculateBackoffDelay 6 = 60 * 60 * 1000 := by
  refine ⟨?_, ?_, ?_, by decide, by decide, by decide⟩
  · intro n _
    rw [calculateBackoffDelay, min_comm]
  · intro m n _ hmn
    apply min_le_min ?_ (le_refl _)
    apply mul_le_mul_of_nonneg_left ?_ (by norm_num)
    apply pow_le_pow_right₀ (by norm_num)
    omega
  · intro n
    exact min_le_right _ _

/-- Witness for C5: the closed-form and monotonicity conjuncts applied at
concrete arguments. -/
theorem C5_witness :
    calculateBackoffDelay 3
        = min (60 * 60 * 1000) (5 * 60 * 1000 * 2 ^ (min (3 - 1) 4)) ∧
    calculateBackoffDelay 2 ≤ calculateBackoffDelay 4 :=
  ⟨C5_calculateBackoffDelay_spec.1 3 (by decide),
    C5_calculateBackoffDelay_spec.2.1 2 4 (by decide) (by decide)⟩

/-! ## Helper lemmas about the refresh-record collection -/

theorem updateFirst_no_match (p : RefreshRecord → Bool)
    (f : RefreshRecord → RefreshRecord) :
    ∀ l : List RefreshRecord, (∀ r ∈ l, p r = false) →
      updateFirst p f l = (none, l) := by
  intro l
  induction l with
  | nil => intro _; rfl
  | cons x xs ih =>
    intro h
    have hx : p x = false := h x (List.mem_cons_self x xs)
    simp only [updateFirst, hx, Bool.false_eq_true, if_false,
      ih (fun r hr => h r (List.mem_cons_of_mem x hr))]

theorem find?_append_skip (p : RefreshRecord → Bool) :
    ∀ (l1 l2 : List RefreshRecord), (∀ r ∈ l1, p r = false) →
      (l1 ++ l2).find? p = l2.find? p := by
  intro l1
  induction l1 with
  | nil => intro l2 _; rfl
  | cons x xs ih =>
    intro l2 h
    have hx : ¬ p x = true := by
      rw [h x (List.mem_cons_self x xs)]; exact Bool.false_ne_true
    rw [List.cons_append, List.find?_cons_of_neg _ hx]
    exact ih l2 (fun r hr => h r (List.mem_cons_of_mem x hr))

theorem updateFirst_append_skip (p : RefreshRecord → Bool)
    (f : RefreshRecord → RefreshRecord) :
    ∀ (l1 l2 : List RefreshRecord), (∀ r ∈ l1, p r = false) →
      updateFirst p f (l1 ++ l2)
        = ((updateFirst p f l2).1, l1 ++ (updateFirst p f l2).2) := by
  intro l1
  induction l1 with
  | nil => intro l2 _; rfl
  | cons x xs ih =>
    intro l2 h
    have hx : p x = false := h x (List.mem_cons_self x xs)
    have hih := ih l2 (fun r hr => h r (List.mem_cons_of_mem x hr))
    simp only [List.cons_append, updateFirst, hx, Bool.false_eq_true, if_false,
      List.append_eq, hih]

/-! ## Claim theorems for the attempt trackers (C3, C6, C10) -/

/-- A refresh record still in progress, used to exercise double completion. -/
def startRec : RefreshRecord :=
  { refreshId := "r1", status := RefreshStatus.in_progress, startTime := 0 }

/-- Counterexample to claim C3 as stated: in the plain tracker variant
(src/services/cookieRefreshTracker.js), a second `markSuccess` on an attempt
that already left `in_progress` does not fail — it returns `ok` and rewrites
the record (new completion time, counts and schedule), so the transition out
of `in_progress` is not conditioned on the record still being in progress. -/
theorem C3_counterexample :
    (plainMarkSuccess 1000 "r1" 7 1 (plainMarkSuccess 500 "r1" 5 0 [startRec]).2).1
      = Except.ok
          { startRec with
            status := RefreshStatus.success
            completionTime := some 1000
            nextScheduledRefresh := some 1801000
            cookieCount := 7
            retryCount := 1 } ∧
    (plainMarkSuccess 1000 "r1" 7 1 (plainMarkSuccess 500 "r1" 5 0 [startRec]).2).2
      ≠ (plainMarkSuccess 500 "r1" 5 0 [startRec]).2 := by
  exact ⟨rfl, by decide⟩

/-- Claim C3 as amended: in the enhanced tracker variant
(src/services/cookieRefreshService.js), once every record with the given id
has left `in_progress`, both `markSuccess` and `markFailed` fail with the
not-found-or-already-completed error and leave the collection unchanged; the
plain variant instead re-applies its unconditional update. -/
theorem C3_amended_enhanced_conditional :
    ∀ (now : Int) (rid em : String) (cc rc : Nat) (store : List RefreshRecord),
      (∀ r ∈ store, r.refreshId = rid → r.status ≠ RefreshStatus.in_progress) →
      markSuccess now rid cc rc store
        = (Except.error (JsError.jsError "Refresh record not found or already completed"),
            store) ∧
      (em ≠ "" → (store.find? (fun r => decide (r.refreshId = rid))).isSome →
        markFailed now rid em rc store
          = (Except.error (JsError.jsError "Refresh record not found or already completed"),
              store)) := by
  intro now rid em cc rc store hterm
  have hno : ∀ r ∈ store,
      (fun r => decide (r.refreshId = rid ∧ r.status = RefreshStatus.in_progress)) r
        = false := by
    intro r hr
    simp only [decide_eq_false_iff_not]
    rintro ⟨h1, h2⟩
    exact hterm r hr h1 h2
  constructor
  · unfold markSuccess
    rw [updateFirst_no_match _ _ store hno]
  · intro hem hsome
    obtain ⟨cur, hcur⟩ := Option.isSome_iff_exists.mp hsome
    unfold markFailed
    rw [if_neg hem, hcur]
    dsimp only
    rw [updateFirst_no_match _ _ store hno]

/-- A refresh record that already completed successfully. -/
def doneRec : RefreshRecord :=
  { refreshId := "r2", status := RefreshStatus.success, startTime := 0 }

/-- Witness for the amended C3: on a store whose only "r2" record already
succeeded, both enhanced completion calls error out and change nothing. -/
theorem C3_amended_witness :
    markSuccess 1000 "r2" 5 0 [doneRec]
      = (Except.error (JsError.jsError "Refresh record not found or already completed"),
          [doneRec]) ∧
    markFailed 1000 "r2" "boom" 0 [doneRec]
      = (Except.error (JsError.jsError "Refresh record not found or already completed"),
          [doneRec]) := by
  have h := C3_amended_enhanced_conditional 1000 "r2" "boom" 5 0 [doneRec] (by decide)
  exact ⟨h.1, h.2 (by decide) (by decide)⟩

/-- A prior terminal (failed) attempt for logical target "e", carrying one
recorded consecutive failure. -/
def priorFailedRec : RefreshRecord :=
  { refreshId := "r0", eventId := some "e", status := RefreshStatus.failed,
    startTime := 0, consecutiveFailures := some 1 }

/-- Counterexample to claim C6 as stated: with a prior terminal attempt for
target "e" carrying `consecutiveFailures = 1`, a fresh attempt "r1" for the
same target that then fails records `consecutiveFailures = 1` — not 2 — and
`nextScheduledRefresh = 200 + backoff(1) = 300200`, not
`200 + backoff(2) = 600200`: the counter is read from the fresh record
itself, never from the prior terminal attempt. -/
theorem C6_counterexample :
    ((markFailed 200 "r1" "boom" 0
        (startRefresh none "r1" (some "e") none 100 [priorFailedRec]).2).1.toOption.map
          (fun r => r.consecutiveFailures)) = some (some 1) ∧
    ((markFailed 200 "r1" "boom" 0
        (startRefresh none "r1" (some "e") none 100 [priorFailedRec]).2).1.toOption.map
          (fun r => r.nextScheduledRefresh)) = some (some 300200) ∧
    some (some 1) ≠ some (some (2 : Nat)) ∧
    calculateBackoffDelay 2 = 600000 ∧
    (300200 : Int) ≠ 200 + calculateBackoffDelay 2 := by
  exact ⟨rfl, rfl, by decide, by decide, by decide⟩

/-- Claim C6 as amended: the enhanced `markFailed` increments the attempt
record's own `consecutiveFailures` (absent on creation, read as 0), so the
failure of any attempt freshly created by `startRefresh` records
`consecutiveFailures = 1` and `nextScheduledRefresh = now + backoff(1)` —
five minutes — regardless of prior terminal attempts for the same target. -/
theorem C6_amended_markFailed_own_counter :
    ∀ (now0 now : Int) (rid : String) (eid proxy : Option String) (em : String)
      (rc : Nat) (store : List RefreshRecord),
      em ≠ "" →
      (∀ r ∈ store, r.refreshId ≠ rid) →
      (markFailed now rid em rc (startRefresh none rid eid proxy now0 store).2).1
        = Except.ok
            { refreshId := rid
              eventId := eid
              status := RefreshStatus.failed
              startTime := now0
              proxy := proxy.getD "no_proxy"
              completionTime := some now
              nextScheduledRefresh := some (now + calculateBackoffDelay 1)
              cookieCount := 0
              retryCount := rc
              errorMessage := some (em.take 500)
              consecutiveFailures := some 1 } ∧
      calculateBackoffDelay 1 = 5 * 60 * 1000 := by
  intro now0 now rid eid proxy em rc store hem hfresh
  have hskip1 : ∀ r ∈ store, (fun r => decide (r.refreshId = rid)) r = false := by
    intro r hr
    simp only [decide_eq_false_iff_not]
    exact hfresh r hr
  have hskip2 : ∀ r ∈ store,
      (fun r => decide (r.refreshId = rid ∧ r.status = RefreshStatus.in_progress)) r
        = false := by
    intro r hr
    simp only [decide_eq_false_iff_not]
    rintro ⟨h1, _⟩
    exact hfresh r hr h1
  have hstore1 : (startRefresh none rid eid proxy now0 store).2
      = store ++ [freshRefreshRecord rid eid (proxy.getD "no_proxy") now0] := rfl
  have hfind2 : List.find? (fun r => decide (r.refreshId = rid))
      (store ++ [freshRefreshRecord rid eid (proxy.getD "no_proxy") now0])
      = some (freshRefreshRecord rid eid (proxy.getD "no_proxy") now0) := by
    rw [find?_append_skip _ _ _ hskip1]
    exact List.find?_cons_of_pos _ (by simp [freshRefreshRecord])
  have hpred : decide
      ((freshRefreshRecord rid eid (proxy.getD "no_proxy") now0).refreshId = rid ∧
        (freshRefreshRecord rid eid (proxy.getD "no_proxy") now0).status
          = RefreshStatus.in_progress) = true := by
    simp [freshRefreshRecord]
  refine ⟨?_, by decide⟩
  unfold markFailed
  rw [if_neg hem, hstore1, hfind2]
  dsimp only
  rw [updateFirst_append_skip _ _ _ _ hskip2]
  dsimp only
  rw [updateFirst, if_pos hpred]
  rfl

/-- Witness for the amended C6: the concrete scenario of the counterexample,
rederived from the amended theorem. -/
theorem C6_amended_witness :
    (markFailed 200 "r1" "boom" 0
        (startRefresh none "r1" (some "e") none 100 [priorFailedRec]).2).1
      = Except.ok
          { refreshId := "r1"
            eventId := some "e"
            status := RefreshStatus.failed
            startTime := 100
            proxy := (none : Option String).getD "no_proxy"
            completionTime := some 200
            nextScheduledRefresh := some (200 + calculateBackoffDelay 1)
            cookieCount := 0
            retryCount := 0
            errorMessage := some ("boom".take 500)
            consecutiveFailures := some 1 } ∧
    calculateBackoffDelay 1 = 5 * 60 * 1000 :=
  C6_amended_markFailed_own_counter 100 200 "r1" (some "e") none "boom" 0
    [priorFailedRec] (by decide) (by decide)

/-- Claim C10: while `DISABLE_PROXIES` is `'true'`, every call to the
enhanced `startRefresh` fails with the `TypeError` raised by the assignment
to the `const` binding `proxyString`, and the collection is left unchanged —
no tracking record is ever created in that configuration. -/
theorem C10_startRefresh_const_assignment :
    ∀ (rid : String) (eid proxy : Option String) (now : Int)
      (store : List RefreshRecord),
      startRefresh (some "true") rid eid proxy now store
        = (Except.error (JsError.typeError "Assignment to constant variable."), store) := by
  intro rid eid proxy now store
  rfl

/-! ## Claim theorem for getRandomProxy (C7) -/

theorem get?_rng_mem {α : Type} (l : List α) (rng : Nat → Nat)
    (hrng : ∀ n, 0 < n → rng n < n) (hl : l ≠ []) :
    ∃ a, l.get? (rng l.length) = some a ∧ a ∈ l := by
  have hlen : 0 < l.length := List.length_pos.mpr hl
  have hidx := hrng _ hlen
  exact ⟨l.get ⟨rng l.length, hidx⟩, List.get?_eq_get hidx, List.get_mem l _ hidx⟩

/-- Claim C7: with a non-empty proxy list, `getRandomProxy` (avoiding failed
proxies) always returns some proxy from the list; it returns `none` exactly
when the global list is empty; and when every proxy is in the failed set, it
clears the failed set as a side effect. -/
theorem C7_getRandomProxy_total :
    ∀ (proxies : List ProxyEntry) (failed : List String) (rng : Nat → Nat),
      (∀ n, 0 < n → rng n < n) →
      (proxies ≠ [] →
        ∃ p, (getRandomProxy proxies failed true rng).1 = some p ∧ p ∈ proxies) ∧
      ((getRandomProxy proxies failed true rng).1 = none ↔ proxies = []) ∧
      (proxies ≠ [] → failed ≠ [] → (∀ p ∈ proxies, p.proxy ∈ failed) →
        (getRandomProxy proxies failed true rng).2 = []) := by
  intro proxies failed rng hrng
  have hmain : proxies ≠ [] →
      ∃ p, (getRandomProxy proxies failed true rng).1 = some p ∧ p ∈ proxies := by
    intro hne
    have hie : proxies.isEmpty = false := by
      rw [List.isEmpty_eq_false]; exact hne
    unfold getRandomProxy
    rw [hie]
    simp only [Bool.false_eq_true, if_false]
    by_cases hcond : True ∧ failed ≠ []
    · rw [if_pos hcond]
      by_cases hav : (proxies.filter (fun p => !(failed.contains p.proxy))).isEmpty = true
      · rw [hav]
        simp only [if_true]
        exact get?_rng_mem proxies rng hrng hne
      · rw [Bool.not_eq_true] at hav
        rw [hav]
        simp only [Bool.false_eq_true, if_false]
        have hfne : proxies.filter (fun p => !(failed.contains p.proxy)) ≠ [] := by
          rw [← List.isEmpty_eq_false]; exact hav
        obtain ⟨p, hp, hmem⟩ :=
          get?_rng_mem (proxies.filter (fun p => !(failed.contains p.proxy))) rng hrng hfne
        exact ⟨p, hp, List.mem_of_mem_filter hmem⟩
    · rw [if_neg hcond]
      exact get?_rng_mem proxies rng hrng hne
  refine ⟨hmain, ⟨?_, ?_⟩, ?_⟩
  · intro hnone
    by_contra hne
    obtain ⟨p, hp, _⟩ := hmain hne
    rw [hp] at hnone
    exact Option.noConfusion hnone
  · intro he
    subst he
    rfl
  · intro hne hfne hall
    have hie : proxies.isEmpty = false := by
      rw [List.isEmpty_eq_false]; exact hne
    have hfilter : proxies.filter (fun p => !(failed.contains p.proxy)) = [] := by
      apply List.filter_eq_nil_iff.mpr
      intro p hp
      simp only [Bool.not_eq_true', Bool.not_eq_false]
      exact List.elem_eq_true_of_mem (hall p hp)
    unfold getRandomProxy
    rw [hie]
    simp only [Bool.false_eq_true, if_false]
    rw [if_pos ⟨trivial, hfne⟩, hfilter]
    rfl

/-- Witness for C7: one proxy, itself marked failed — the call clears the
failed set. -/
theorem C7_witness :
    (getRandomProxy [{ proxy := "p1" }] ["p1"] true (fun _ => 0)).2 = [] :=
  (C7_getRandomProxy_total [{ proxy := "p1" }] ["p1"] (fun _ => 0)
      (fun _ h => h)).2.2 (by decide) (by decide) (by decide)

/-! ## Claim theorem for the pool scheduler (C8) -/

/-- Claim C8: in every reachable scheduler state the active-session set stays
within `maxConcurrent`; a tick adds at most one session; with
`maxConcurrent = 1` and one session active a tick spawns nothing; and a
completed session's id leaves the set. -/
theorem C8_pool_concurrency_cap :
    (∀ (maxConcurrent : Nat) (s : Finset String),
      PoolReachable maxConcurrent s → s.card ≤ maxConcurrent) ∧
    (∀ (maxConcurrent : Nat) (s : Finset String) (hasEvent : Bool) (newId : String),
      (processVisitsTick maxConcurrent s hasEvent newId).card ≤ s.card + 1) ∧
    (∀ (s : Finset String) (hasEvent : Bool) (newId : String),
      s.card = 1 → processVisitsTick 1 s hasEvent newId = s) ∧
    (∀ (s : Finset String) (sessionId : String),
      sessionId ∉ completeSession s sessionId) := by
  refine ⟨?_, ?_, ?_, ?_⟩
  · intro maxConcurrent s h
    induction h with
    | init => simp
    | tick s hasEvent newId _ ih =>
      unfold processVisitsTick
      by_cases h1 : s.card < maxConcurrent
      · rw [if_pos h1]
        cases hasEvent with
        | false => simpa using ih
        | true =>
          simp only [if_true]
          exact le_trans (Finset.card_insert_le newId s) (by omega)
      · rw [if_neg h1]
        exact ih
    | complete s sessionId _ ih =>
      exact le_trans (Finset.card_erase_le) ih
  · intro maxConcurrent s hasEvent newId
    unfold processVisitsTick
    by_cases h1 : s.card < maxConcurrent
    · rw [if_pos h1]
      cases hasEvent with
      | false => simp
      | true =>
        simp only [if_true]
        exact Finset.card_insert_le newId s
    · rw [if_neg h1]
      omega
  · intro s hasEvent newId h1
    unfold processVisitsTick
    rw [if_neg (by omega)]
  · intro s sessionId
    exact Finset.not_mem_erase sessionId s

/-- Witness for C8: the empty state is reachable and within the cap, and a
tick at `maxConcurrent = 1` over the singleton state `{"a"}` spawns
nothing. -/
theorem C8_witness :
    (∅ : Finset String).card ≤ 1 ∧
    processVisitsTick 1 {"a"} true "b" = {"a"} :=
  ⟨C8_pool_concurrency_cap.1 1 ∅ PoolReachable.init,
    C8_pool_concurrency_cap.2.2.1 {"a"} true "b" (Finset.card_singleton "a")⟩

end CookiesService
